import Mathlib

/-!
Verification of the lidex durable-workflow core (src/index.ts) against its
specification. The TypeScript is embedded shallowly: JavaScript values are an
inductive `Value` (with an explicit `undef`), the persistence provider is an
association-list store, promises returning values become `Except`, and each
primitive additionally returns the list of persistence/delay events it
performed, in order, so that claims about what is written and when can be
stated directly.
-/

namespace Lidex

/-- A JavaScript value as it flows through the store: step outputs and
workflow inputs are opaque; `undef` is JavaScript's `undefined`. -/
inductive Value where
  | undef
  | null
  | bool (b : Bool)
  | num (n : Int)
  | str (s : String)
  deriving DecidableEq, Repr

/-- The workflow status vocabulary from src/index.ts line 1. -/
inductive Status where
  | idle
  | running
  | failed
  | finished
  | aborted
  deriving DecidableEq, Repr

/-- First-match association-list lookup (leftmost binding wins, matching the
"latest write shadows" convention used by the store model below). -/
def findAssoc {α β : Type} [DecidableEq α] : List (α × β) → α → Option β
  | [], _ => none
  | (k, v) :: rest, key => if key = k then some v else findAssoc rest key

/-- The persistence provider's state, as far as the workflow primitives see
it: step records keyed by (workflowId, stepId), nap records keyed by
(workflowId, napId), and the per-workflow timeoutAt writes. Writes prepend,
so `findAssoc` returns the most recent value. -/
structure Store where
  outputs : List ((String × String) × Value)
  naps : List ((String × String) × Int)
  timeouts : List (String × Int)
  deriving DecidableEq, Repr

/-- `persistence.findOutput`: returns the recorded output, and `undefined`
when no record exists — exactly the collapse the TypeScript signature
`Promise<unknown>` performs (a recorded `undefined` output is returned
identically to "no record"). -/
def findOutput (st : Store) (workflowId stepId : String) : Value :=
  match findAssoc st.outputs (workflowId, stepId) with
  | some v => v
  | none => Value.undef

/-- `persistence.findWakeUpAt`: the recorded wake-up instant, or absent. -/
def findWakeUpAt (st : Store) (workflowId napId : String) : Option Int :=
  findAssoc st.naps (workflowId, napId)

/-- `persistence.updateOutput`: records the step output and pushes the
workflow's timeoutAt in one unit. -/
def updateOutput (st : Store) (workflowId stepId : String) (output : Value)
    (timeoutAt : Int) : Store :=
  { st with
    outputs := ((workflowId, stepId), output) :: st.outputs
    timeouts := (workflowId, timeoutAt) :: st.timeouts }

/-- `persistence.updateWakeUpAt`: records the nap and pushes timeoutAt. -/
def updateWakeUpAt (st : Store) (workflowId napId : String) (wakeUpAt timeoutAt : Int) :
    Store :=
  { st with
    naps := ((workflowId, napId), wakeUpAt) :: st.naps
    timeouts := (workflowId, timeoutAt) :: st.timeouts }

/-- An observable action performed by `step` or `sleep`, in program order. -/
inductive Ev where
  | updateOutputEv (workflowId stepId : String) (output : Value) (timeoutAt : Int)
  | updateWakeUpAtEv (workflowId napId : String) (wakeUpAt timeoutAt : Int)
  | delayEv (ms : Int)
  deriving DecidableEq, Repr

/-- Result of one `step` call: the value returned (or the error propagated),
the store afterwards, the events performed, and how many times `fn` ran. -/
structure StepResult where
  result : Except String Value
  store : Store
  evs : List Ev
  fnCalls : Nat
  deriving Repr

/-- The step primitive from `makeMakeStep` (src/index.ts lines 266-285):
look up the output; if it is not `undefined` return it; otherwise run `fn`
(modelled by its outcome: a value or a thrown error message), and on success
persist the output with `timeoutAt = now + timeoutIntervalMs` via
`updateOutput`. A throwing `fn` propagates and writes nothing. -/
def step (st : Store) (timeoutIntervalMs now : Int) (workflowId stepId : String)
    (fn : Except String Value) : StepResult :=
  let output := findOutput st workflowId stepId
  if output ≠ Value.undef then
    ⟨Except.ok output, st, [], 0⟩
  else
    match fn with
    | Except.error e => ⟨Except.error e, st, [], 1⟩
    | Except.ok v =>
      let timeoutAt := now + timeoutIntervalMs
      ⟨Except.ok v, updateOutput st workflowId stepId v timeoutAt,
        [Ev.updateOutputEv workflowId stepId v timeoutAt], 1⟩

/-- Result of one `sleep` call: the store afterwards and the events. -/
structure SleepResult where
  store : Store
  evs : List Ev
  deriving Repr

/-- The sleep primitive from `makeMakeSleep` (src/index.ts lines 287-309):
if a nap record exists, delay its remainder when positive, otherwise return
at once; if absent, persist `wakeUpAt = now + ms` and
`timeoutAt = wakeUpAt + timeoutIntervalMs` first, then delay `ms`. -/
def sleep (st : Store) (timeoutIntervalMs now : Int) (workflowId napId : String)
    (ms : Int) : SleepResult :=
  match findWakeUpAt st workflowId napId with
  | some wakeUpAt =>
    let remainingMs := wakeUpAt - now
    if remainingMs > 0 then ⟨st, [Ev.delayEv remainingMs]⟩ else ⟨st, []⟩
  | none =>
    let wakeUpAt := now + ms
    let timeoutAt := wakeUpAt + timeoutIntervalMs
    ⟨updateWakeUpAt st workflowId napId wakeUpAt timeoutAt,
      [Ev.updateWakeUpAtEv workflowId napId wakeUpAt timeoutAt, Ev.delayEv ms]⟩

/-- The run data loaded by `persistence.findRunData`: handler name, input,
and an optional failure count (absent for a workflow that never failed). -/
structure RunData where
  handler : String
  input : Value
  failures : Option Int
  deriving Repr

/-- JavaScript `a || b` on a number that may be absent: `undefined` and the
falsy number `0` both yield the default. Used by `makeRun` for
`runData.failures || 0` and by `makeWorker` for option defaulting. -/
def jsOrInt (v : Option Int) (d : Int) : Int :=
  match v with
  | some n => if n = 0 then d else n
  | none => d

/-- A store write performed by `run`. -/
inductive RunEv where
  | updateStatusEv (workflowId : String) (status : Status) (timeoutAt : Int)
      (failures : Int) (lastError : String)
  | setAsFinishedEv (workflowId : String)
  deriving DecidableEq, Repr

/-- Result of one `run` call: normal return or a propagated error, plus the
store writes performed (none on the propagated-error paths). -/
structure RunResult where
  result : Except String Unit
  evs : List RunEv
  deriving Repr

/-- The run engine from `makeRun` (src/index.ts lines 311-372). The handler
registry maps names to the handler's outcome on a given input (`Except.ok`
for a normal return, `Except.error msg` for a throw whose text rendering is
`msg`). Absent run data or an unregistered handler throws; a handler error
is translated into one `updateStatus` write with
`failures = (runData.failures || 0) + 1`, status `failed` when that count is
below `maxFailures` and `aborted` otherwise, and
`timeoutAt = now + retryIntervalMs`; a successful handler leads to
`setAsFinished`. -/
def run (handlers : List (String × (Value → Except String Unit)))
    (runData : Option RunData) (maxFailures retryIntervalMs now : Int)
    (workflowId : String) : RunResult :=
  match runData with
  | none => ⟨Except.error ("workflow not found: " ++ workflowId), []⟩
  | some rd =>
    match findAssoc handlers rd.handler with
    | none => ⟨Except.error ("handler not found: " ++ rd.handler), []⟩
    | some fn =>
      match fn rd.input with
      | Except.ok _ => ⟨Except.ok (), [RunEv.setAsFinishedEv workflowId]⟩
      | Except.error msg =>
        let lastError := msg
        let failures := jsOrInt rd.failures 0 + 1
        let status := if failures < maxFailures then Status.failed else Status.aborted
        let timeoutAt := now + retryIntervalMs
        ⟨Except.ok (), [RunEv.updateStatusEv workflowId status timeoutAt failures lastError]⟩

/-- An observable action of the client's `wait`: one `findStatus` poll with
the status it returned, or one delay. -/
inductive WaitEv where
  | findStatusEv (found : Option Status)
  | delayEv (ms : Int)
  deriving DecidableEq, Repr

/-- The loop body of `makeWait` (src/index.ts lines 223-242), with the loop
counter `i` made explicit and `findStatusAt i` giving the result of the
i-th `findStatus` poll. Mirrors
`if (foundStatus && status.includes(foundStatus)) return foundStatus;`
followed by `goSleep(ms)`. -/
def waitAux (findStatusAt : Nat → Option Status) (statusSet : List Status)
    (ms : Int) : Nat → Nat → Option Status × List WaitEv
  | _, 0 => (none, [])
  | i, fuel + 1 =>
    match findStatusAt i with
    | some s =>
      if s ∈ statusSet then (some s, [WaitEv.findStatusEv (some s)])
      else
        let r := waitAux findStatusAt statusSet ms (i + 1) fuel
        (r.1, WaitEv.findStatusEv (some s) :: WaitEv.delayEv ms :: r.2)
    | none =>
      let r := waitAux findStatusAt statusSet ms (i + 1) fuel
      (r.1, WaitEv.findStatusEv none :: WaitEv.delayEv ms :: r.2)

/-- `wait(id, statusSet, times, ms)` from `makeWait`: at most `times`
iterations starting at poll index 0. -/
def wait (findStatusAt : Nat → Option Status) (statusSet : List Status)
    (times : Nat) (ms : Int) : Option Status × List WaitEv :=
  waitAux findStatusAt statusSet ms 0 times

/-- The matching test applied to one poll result, following the spec's words
for `wait`: a found status that is a member of the status set. -/
def waitMatch (statusSet : List Status) (o : Option Status) : Option Status :=
  match o with
  | some s => if s ∈ statusSet then some s else none
  | none => none

/-- True exactly on poll events, to count `findStatus` calls. -/
def isPollEv : WaitEv → Bool
  | WaitEv.findStatusEv _ => true
  | WaitEv.delayEv _ => false

/-- An observable action of the supervisor's poll loop. -/
inductive PollEv where
  | shouldStopEv (b : Bool)
  | claimEv (r : Option String)
  | dispatchEv (workflowId : String)
  | delayPollEv (ms : Int)
  deriving DecidableEq, Repr

/-- The poll loop from `makePoll` (src/index.ts lines 374-390), iteration
counter `i` explicit: `shouldStop i` and `claimAt i` give the outcomes of
the i-th iteration's checks, `fuel` bounds how many iterations are
observed. Dispatch (`run` started without awaiting) and the idle delay are
recorded as events; the loop proceeds to the next iteration immediately
after a dispatch. -/
def poll (shouldStop : Nat → Bool) (claimAt : Nat → Option String)
    (pollIntervalMs : Int) : Nat → Nat → List PollEv
  | _, 0 => []
  | i, fuel + 1 =>
    if shouldStop i then [PollEv.shouldStopEv true]
    else
      PollEv.shouldStopEv false ::
        match claimAt i with
        | some workflowId =>
          PollEv.claimEv (some workflowId) :: PollEv.dispatchEv workflowId ::
            poll shouldStop claimAt pollIntervalMs (i + 1) fuel
        | none =>
          PollEv.claimEv none :: PollEv.delayPollEv pollIntervalMs ::
            poll shouldStop claimAt pollIntervalMs (i + 1) fuel

/-- The workflow-record fields that the retry/abort state machine reads and
writes: status, failure count, and the lease deadline. -/
structure WfState where
  status : Status
  failures : Int
  timeoutAt : Int
  deriving DecidableEq, Repr

/-- Modelled from the spec: the ready-to-run predicate of
`persistence.claim`, stated in the `Persistence` interface documentation
(src/index.ts lines 99-113) and spec section 4.2; the provider implementing
it lives outside this repository. A workflow is claimable when idle, or
running or failed with an expired timeout. `finished` and `aborted` are
never claimable. -/
def claimable (s : WfState) (now : Int) : Prop :=
  s.status = Status.idle ∨
    ((s.status = Status.running ∨ s.status = Status.failed) ∧ s.timeoutAt < now)

/-- One run invocation on a workflow, at the store level, runs performed in
sequence: `claim` leases the workflow (status `running`,
`timeoutAt = now + timeoutIntervalMs`), then `run`'s body either crashes
before writing (`claimOnly`), finishes (`setAsFinished`), or translates a
handler error into the `failed`/`aborted` write of src/index.ts lines
354-365 with the failure count read back from the store. -/
inductive RunTrans (maxFailures retryIntervalMs timeoutIntervalMs : Int) :
    WfState → WfState → Prop where
  | claimOnly (s : WfState) (now : Int) (h : claimable s now) :
      RunTrans maxFailures retryIntervalMs timeoutIntervalMs s
        ⟨Status.running, s.failures, now + timeoutIntervalMs⟩
  | success (s : WfState) (now : Int) (h : claimable s now) :
      RunTrans maxFailures retryIntervalMs timeoutIntervalMs s
        ⟨Status.finished, s.failures, now + timeoutIntervalMs⟩
  | failure (s : WfState) (now nowEnd : Int) (h : claimable s now) :
      RunTrans maxFailures retryIntervalMs timeoutIntervalMs s
        ⟨if s.failures + 1 < maxFailures then Status.failed else Status.aborted,
          s.failures + 1, nowEnd + retryIntervalMs⟩

/-- Workflow states reachable from the initial record `start` creates:
status `idle`, no failures. -/
inductive Reachable (maxFailures retryIntervalMs timeoutIntervalMs : Int) :
    WfState → Prop where
  | init (t0 : Int) :
      Reachable maxFailures retryIntervalMs timeoutIntervalMs ⟨Status.idle, 0, t0⟩
  | next (s s' : WfState)
      (hs : Reachable maxFailures retryIntervalMs timeoutIntervalMs s)
      (ht : RunTrans maxFailures retryIntervalMs timeoutIntervalMs s s') :
      Reachable maxFailures retryIntervalMs timeoutIntervalMs s'

/-- The workflow table seen by `start`, keyed by workflow id. -/
structure WfTable where
  rows : List (String × String × Value)
  deriving DecidableEq, Repr

/-- Modelled from the spec: `persistence.insert` (implemented by the
persistence provider outside this repository; its contract is the
`Persistence` interface documentation at src/index.ts lines 89-97 and spec
section 4.2): create the workflow record and return `true`, or return
`false` leaving the table unchanged when the id already exists. -/
def insert (tbl : WfTable) (workflowId handler : String) (input : Value) :
    Bool × WfTable :=
  match findAssoc tbl.rows workflowId with
  | some _ => (false, tbl)
  | none => (true, ⟨(workflowId, handler, input) :: tbl.rows⟩)

/-- `start` from `makeStart` (src/index.ts lines 211-219): a direct
delegation to `persistence.insert`. -/
def start (tbl : WfTable) (workflowId handler : String) (input : Value) :
    Bool × WfTable :=
  insert tbl workflowId handler input

/-- The optional worker configuration (src/index.ts lines 60-67). -/
structure WorkerOptions where
  maxFailures : Option Int
  timeoutIntervalMs : Option Int
  pollIntervalMs : Option Int
  retryIntervalMs : Option Int
  deriving Repr

/-- The effective worker configuration after defaulting. -/
structure ResolvedOptions where
  maxFailures : Int
  timeoutIntervalMs : Int
  pollIntervalMs : Int
  retryIntervalMs : Int
  deriving DecidableEq, Repr

def DEFAULT_MAX_FAILURES : Int := 3
def DEFAULT_TIMEOUT_MS : Int := 60000
def DEFAULT_POLL_MS : Int := 1000
def DEFAULT_RETRY_MS : Int := 60000

/-- Option defaulting in `makeWorker` (src/index.ts lines 392-397): each
option is combined with its default using JavaScript `||`. -/
def resolveWorkerOptions (c : WorkerOptions) : ResolvedOptions :=
  ⟨jsOrInt c.maxFailures DEFAULT_MAX_FAILURES,
    jsOrInt c.timeoutIntervalMs DEFAULT_TIMEOUT_MS,
    jsOrInt c.pollIntervalMs DEFAULT_POLL_MS,
    jsOrInt c.retryIntervalMs DEFAULT_RETRY_MS⟩

lemma jsOrInt_zero (v : Option Int) : jsOrInt v 0 = v.getD 0 := by
  cases v with
  | none => rfl
  | some n =>
    by_cases h : n = 0
    · simp [jsOrInt, h]
    · simp [jsOrInt, h]

lemma step_eq_of_undef (st : Store) (tI now : Int) (wid sid : String) (v : Value)
    (habs : findOutput st wid sid = Value.undef) :
    step st tI now wid sid (Except.ok v) =
      ⟨Except.ok v, updateOutput st wid sid v (now + tI),
        [Ev.updateOutputEv wid sid v (now + tI)], 1⟩ := by
  simp [step, habs]

/-- Claim C1 (amended): `step` branches on whether the looked-up output is
defined (not `undefined`, which is also what `findOutput` reports for an
absent record). If defined, it is returned with `fn` not invoked and no
write; otherwise `fn` runs once and, on success, its output is persisted via
one `updateOutput` carrying `timeoutAt = now + timeoutIntervalMs`; a
throwing `fn` propagates its error with no record written. -/
theorem step_spec (st : Store) (tI now : Int) (wid sid : String)
    (fn : Except String Value) :
    (findOutput st wid sid ≠ Value.undef →
      step st tI now wid sid fn = ⟨Except.ok (findOutput st wid sid), st, [], 0⟩) ∧
    (∀ v, findOutput st wid sid = Value.undef → fn = Except.ok v →
      step st tI now wid sid fn =
        ⟨Except.ok v, updateOutput st wid sid v (now + tI),
          [Ev.updateOutputEv wid sid v (now + tI)], 1⟩) ∧
    (∀ e, findOutput st wid sid = Value.undef → fn = Except.error e →
      step st tI now wid sid fn = ⟨Except.error e, st, [], 1⟩) := by
  refine ⟨fun hdef => ?_, fun v habs hfn => ?_, fun e habs hfn => ?_⟩
  · simp [step, hdef]
  · subst hfn; simp [step, habs]
  · subst hfn; simp [step, habs]

/-- Claim C1 witness: with a defined recorded output, `step` returns it with
`fn` not invoked and no events. -/
theorem step_spec_witness :
    step (Store.mk [(("w", "s"), Value.num 7)] [] []) 10 0 "w" "s"
      (Except.ok (Value.num 5)) =
      ⟨Except.ok (Value.num 7), Store.mk [(("w", "s"), Value.num 7)] [] [], [], 0⟩ := by
  simpa using
    (step_spec (Store.mk [(("w", "s"), Value.num 7)] [] []) 10 0 "w" "s"
      (Except.ok (Value.num 5))).1 (by decide)

/-- Claim C1 counterexample: a step record is present for ("w", "s") — its
recorded output is `undefined` — yet `step` invokes `fn` (once), refuting
"if a record is present it returns the recorded value without invoking
fn". -/
theorem step_record_present_counterexample :
    findAssoc (Store.mk [(("w", "s"), Value.undef)] [] []).outputs ("w", "s") =
      some Value.undef ∧
    (step (Store.mk [(("w", "s"), Value.undef)] [] []) 10 0 "w" "s"
      (Except.ok (Value.num 5))).fnCalls = 1 :=
  ⟨rfl, rfl⟩

/-- Claim C9: when `fn` resolves to `undefined`, memoization never takes
effect: from any state in which the lookup collapses to `undefined`, `step`
invokes `fn` and writes a record, and after that write — the record now
exists, holding `undefined` — a re-execution again invokes `fn` once and
re-writes the record. -/
theorem step_undefined_never_memoized (st : Store) (tI now now2 : Int)
    (wid sid : String) (habs : findOutput st wid sid = Value.undef) :
    (step st tI now wid sid (Except.ok Value.undef)).fnCalls = 1 ∧
    (step st tI now wid sid (Except.ok Value.undef)).evs =
      [Ev.updateOutputEv wid sid Value.undef (now + tI)] ∧
    findAssoc (step st tI now wid sid (Except.ok Value.undef)).store.outputs
      (wid, sid) = some Value.undef ∧
    (step (step st tI now wid sid (Except.ok Value.undef)).store tI now2 wid sid
      (Except.ok Value.undef)).fnCalls = 1 ∧
    (step (step st tI now wid sid (Except.ok Value.undef)).store tI now2 wid sid
      (Except.ok Value.undef)).evs =
      [Ev.updateOutputEv wid sid Value.undef (now2 + tI)] := by
  have h1 := step_eq_of_undef st tI now wid sid Value.undef habs
  have habs2 :
      findOutput (updateOutput st wid sid Value.undef (now + tI)) wid sid =
        Value.undef := by
    simp [findOutput, updateOutput, findAssoc]
  have h2 := step_eq_of_undef (updateOutput st wid sid Value.undef (now + tI)) tI
    now2 wid sid Value.undef habs2
  refine ⟨?_, ?_, ?_, ?_, ?_⟩
  · simp [h1]
  · simp [h1]
  · simp [h1, updateOutput, findAssoc]
  · simp [h1, h2]
  · simp [h1, h2]

/-- Claim C9 witness: starting from the empty store, two executions of a
step whose `fn` resolves `undefined` both invoke `fn` and both write. -/
theorem step_undefined_never_memoized_witness :
    (step (Store.mk [] [] []) 7 0 "w" "s" (Except.ok Value.undef)).fnCalls = 1 ∧
    (step (Store.mk [] [] []) 7 0 "w" "s" (Except.ok Value.undef)).evs =
      [Ev.updateOutputEv "w" "s" Value.undef (0 + 7)] ∧
    findAssoc
      (step (Store.mk [] [] []) 7 0 "w" "s" (Except.ok Value.undef)).store.outputs
      ("w", "s") = some Value.undef ∧
    (step (step (Store.mk [] [] []) 7 0 "w" "s" (Except.ok Value.undef)).store 7 5
      "w" "s" (Except.ok Value.undef)).fnCalls = 1 ∧
    (step (step (Store.mk [] [] []) 7 0 "w" "s" (Except.ok Value.undef)).store 7 5
      "w" "s" (Except.ok Value.undef)).evs =
      [Ev.updateOutputEv "w" "s" Value.undef (5 + 7)] :=
  step_undefined_never_memoized (Store.mk [] [] []) 7 0 5 "w" "s" rfl

/-- Claim C3: `sleep` by cases on the recorded nap: present with
`wakeUpAt > now` delays exactly `wakeUpAt - now` and writes nothing;
present with `wakeUpAt ≤ now` returns at once with no delay and no write;
absent persists `wakeUpAt = now + ms` and
`timeoutAt = wakeUpAt + timeoutIntervalMs` via `updateWakeUpAt` and only
then delays `ms`. -/
theorem sleep_spec (st : Store) (tI now : Int) (wid nid : String) (ms : Int) :
    (∀ w, findWakeUpAt st wid nid = some w → now < w →
      sleep st tI now wid nid ms = ⟨st, [Ev.delayEv (w - now)]⟩) ∧
    (∀ w, findWakeUpAt st wid nid = some w → w ≤ now →
      sleep st tI now wid nid ms = ⟨st, []⟩) ∧
    (findWakeUpAt st wid nid = none →
      sleep st tI now wid nid ms =
        ⟨updateWakeUpAt st wid nid (now + ms) (now + ms + tI),
          [Ev.updateWakeUpAtEv wid nid (now + ms) (now + ms + tI),
            Ev.delayEv ms]⟩) := by
  refine ⟨fun w hw hgt => ?_, fun w hw hle => ?_, fun habs => ?_⟩
  · simp [sleep, hw, sub_pos.mpr hgt]
  · simp [sleep, hw]
    omega
  · simp [sleep, habs]

/-- Claim C3 witness: a recorded nap at instant 100 observed at instant 50
delays exactly 50 and performs no write. -/
theorem sleep_spec_witness :
    sleep (Store.mk [] [(("w", "n"), 100)] []) 7 50 "w" "n" 30 =
      ⟨Store.mk [] [(("w", "n"), 100)] [], [Ev.delayEv 50]⟩ := by
  simpa using
    (sleep_spec (Store.mk [] [(("w", "n"), 100)] []) 7 50 "w" "n" 30).1 100
      (by decide) (by decide)

/-- Claim C2: a handler invocation that throws is caught by `run`: it
returns normally having performed exactly one `updateStatus` write carrying
`failures = (stored failures, 0 when absent) + 1`, status `failed` when that
count is below `maxFailures` and `aborted` otherwise,
`timeoutAt = now + retryIntervalMs`, and the error text; in particular no
`setAsFinished` is performed. -/
theorem run_handler_error (handlers : List (String × (Value → Except String Unit)))
    (rd : RunData) (maxF retryI now : Int) (wid msg : String)
    (f : Value → Except String Unit)
    (hf : findAssoc handlers rd.handler = some f)
    (he : f rd.input = Except.error msg) :
    run handlers (some rd) maxF retryI now wid =
      ⟨Except.ok (),
        [RunEv.updateStatusEv wid
          (if rd.failures.getD 0 + 1 < maxF then Status.failed else Status.aborted)
          (now + retryI) (rd.failures.getD 0 + 1) msg]⟩ := by
  simp [run, hf, he, jsOrInt_zero]

/-- Claim C2 witness: a workflow with no prior failures whose handler throws
"boom" under `maxFailures = 3` gets one `failed` write with `failures = 1`
and its `run` returns normally. -/
theorem run_handler_error_witness :
    run [("h", fun _ => Except.error "boom")]
      (some (RunData.mk "h" (Value.num 1) none)) 3 60000 0 "W" =
      ⟨Except.ok (),
        [RunEv.updateStatusEv "W" Status.failed 60000 1 "boom"]⟩ := by
  simpa using
    run_handler_error [("h", fun _ => Except.error "boom")]
      (RunData.mk "h" (Value.num 1) none) 3 60000 0 "W" "boom"
      (fun _ => Except.error "boom") rfl rfl

/-- Claim C7: `run` on a workflow whose run data is absent throws
"workflow not found", and on run data naming an unregistered handler throws
"handler not found"; both errors propagate and in both cases the write log
is empty (no `updateStatus`, no `setAsFinished`). -/
theorem run_load_errors (handlers : List (String × (Value → Except String Unit)))
    (maxF retryI now : Int) (wid : String) :
    run handlers none maxF retryI now wid =
      ⟨Except.error ("workflow not found: " ++ wid), []⟩ ∧
    (∀ rd : RunData, findAssoc handlers rd.handler = none →
      run handlers (some rd) maxF retryI now wid =
        ⟨Except.error ("handler not found: " ++ rd.handler), []⟩) := by
  refine ⟨rfl, fun rd h => ?_⟩
  simp [run, h]

/-- Claim C7 witness: an empty registry makes `run` throw "handler not
found: h" with no writes. -/
theorem run_load_errors_witness :
    run ([] : List (String × (Value → Except String Unit)))
      (some (RunData.mk "h" Value.null none)) 3 0 0 "W" =
      ⟨Except.error ("handler not found: " ++ "h"), []⟩ := by
  simpa using
    (run_load_errors ([] : List (String × (Value → Except String Unit))) 3 0 0
      "W").2 (RunData.mk "h" Value.null none) rfl

lemma claimable_status_ne_aborted {s : WfState} {now : Int} (h : claimable s now) :
    s.status ≠ Status.aborted := by
  rcases h with h1 | ⟨h2 | h2, _⟩
  · simp [h1]
  · simp [h2]
  · simp [h2]

lemma reachable_invariant (maxF retryI tI : Int) (hmax : 1 ≤ maxF)
    (s : WfState) (hs : Reachable maxF retryI tI s) :
    (s.status ≠ Status.aborted → s.failures < maxF) ∧
    (s.status = Status.aborted → s.failures = maxF) := by
  induction hs with
  | init t0 =>
    refine ⟨fun _ => by simpa using hmax, fun h => ?_⟩
    simp at h
  | next s s' hs ht ih =>
    cases ht with
    | claimOnly now h =>
      exact ⟨fun _ => ih.1 (claimable_status_ne_aborted h), fun habs => by simp at habs⟩
    | success now h =>
      exact ⟨fun _ => ih.1 (claimable_status_ne_aborted h), fun habs => by simp at habs⟩
    | failure now nowEnd h =>
      have hlt : s.failures < maxF := ih.1 (claimable_status_ne_aborted h)
      by_cases hc : s.failures + 1 < maxF
      · rw [if_pos hc]
        refine ⟨fun _ => hc, fun habs => ?_⟩
        simp at habs
      · rw [if_neg hc]
        refine ⟨fun hne => absurd rfl hne, fun _ => ?_⟩
        show s.failures + 1 = maxF
        omega

/-- Claim C4: across every sequence of run invocations on one workflow
(each invocation: a `claim` of a ready workflow followed by `run`'s write,
performed in sequence), the stored failure count never decreases along a
transition, never exceeds `maxFailures`, and every state whose status is
`aborted` has `failures` exactly `maxFailures` (stated for `maxFailures ≥ 1`,
which `makeWorker`'s defaulting of falsy values guarantees). -/
theorem run_failures_invariant (maxF retryI tI : Int) (hmax : 1 ≤ maxF) :
    (∀ s s' : WfState, RunTrans maxF retryI tI s s' → s.failures ≤ s'.failures) ∧
    (∀ s : WfState, Reachable maxF retryI tI s →
      s.failures ≤ maxF ∧ (s.status = Status.aborted → s.failures = maxF)) := by
  constructor
  · intro s s' ht
    cases ht <;> simp
  · intro s hs
    have h := reachable_invariant maxF retryI tI hmax s hs
    refine ⟨?_, h.2⟩
    by_cases hst : s.status = Status.aborted
    · exact le_of_eq (h.2 hst)
    · exact le_of_lt (h.1 hst)

/-- Claim C4 witness: with `maxFailures = 1`, the aborted state reached by
claiming the fresh workflow and failing once has `failures = 1 = maxFailures`
(and at most `maxFailures`). -/
theorem run_failures_invariant_witness :
    (WfState.mk Status.aborted 1 5).failures ≤ 1 ∧
    ((WfState.mk Status.aborted 1 5).status = Status.aborted →
      (WfState.mk Status.aborted 1 5).failures = 1) := by
  have h : RunTrans 1 0 0 (WfState.mk Status.idle 0 0)
      (WfState.mk
        (if (WfState.mk Status.idle 0 0).failures + 1 < 1 then Status.failed
          else Status.aborted)
        ((WfState.mk Status.idle 0 0).failures + 1) (5 + 0)) :=
    RunTrans.failure (WfState.mk Status.idle 0 0) 9 5 (Or.inl rfl)
  have htrans : RunTrans 1 0 0 (WfState.mk Status.idle 0 0)
      (WfState.mk Status.aborted 1 5) := by
    simpa using h
  exact (run_failures_invariant 1 0 0 (by decide)).2 (WfState.mk Status.aborted 1 5)
    (Reachable.next (WfState.mk Status.idle 0 0) (WfState.mk Status.aborted 1 5)
      (Reachable.init 0) htrans)

lemma waitAux_fst (fsa : Nat → Option Status) (statusSet : List Status) (ms : Int) :
    ∀ fuel i, (waitAux fsa statusSet ms i fuel).1 =
      (List.range' i fuel).findSome? (fun j => waitMatch statusSet (fsa j)) := by
  intro fuel
  induction fuel with
  | zero => intro i; simp [waitAux]
  | succ n ih =>
    intro i
    rw [List.range'_succ]
    cases hfs : fsa i with
    | none => simp [waitAux, hfs, waitMatch, ih]
    | some s =>
      by_cases hmem : s ∈ statusSet
      · simp [waitAux, hfs, waitMatch, hmem]
      · simp [waitAux, hfs, waitMatch, hmem, ih]

lemma waitAux_countP (fsa : Nat → Option Status) (statusSet : List Status) (ms : Int) :
    ∀ fuel i, ((waitAux fsa statusSet ms i fuel).2.countP isPollEv) ≤ fuel := by
  intro fuel
  induction fuel with
  | zero => intro i; simp [waitAux]
  | succ n ih =>
    intro i
    have hrec := ih (i + 1)
    cases hfs : fsa i with
    | none =>
      simp [waitAux, hfs, List.countP_cons, isPollEv]
      omega
    | some s =>
      by_cases hmem : s ∈ statusSet
      · simp [waitAux, hfs, hmem, List.countP_cons, isPollEv]
      · simp [waitAux, hfs, hmem, List.countP_cons, isPollEv]
        omega

/-- Claim C5: `wait` polls `findStatus` at most `times` times, returns the
first polled status that is a member of the status set (and "none" when no
poll within the budget matches), and with `times = 0` returns immediately,
performing no poll and no delay. -/
theorem wait_spec (fsa : Nat → Option Status) (statusSet : List Status)
    (times : Nat) (ms : Int) :
    (wait fsa statusSet times ms).1 =
      (List.range times).findSome? (fun i => waitMatch statusSet (fsa i)) ∧
    ((wait fsa statusSet times ms).2.countP isPollEv) ≤ times ∧
    wait fsa statusSet 0 ms = (none, []) := by
  refine ⟨?_, waitAux_countP fsa statusSet ms times 0, rfl⟩
  rw [wait, waitAux_fst, List.range_eq_range']

/-- Claim C6: in every observed iteration of the poll loop, `shouldStop` is
evaluated first; when it stops, nothing else happens; when `claim` returns
an id, the iteration is exactly stop-check, claim, dispatch — no delay —
and the loop proceeds to the next iteration; when `claim` returns none, the
iteration is exactly stop-check, claim, delay of `pollIntervalMs` — no
dispatch. -/
theorem poll_iteration_spec (shouldStop : Nat → Bool) (claimAt : Nat → Option String)
    (ms : Int) (i fuel : Nat) :
    (shouldStop i = true →
      poll shouldStop claimAt ms i (fuel + 1) = [PollEv.shouldStopEv true]) ∧
    (∀ w, shouldStop i = false → claimAt i = some w →
      poll shouldStop claimAt ms i (fuel + 1) =
        PollEv.shouldStopEv false :: PollEv.claimEv (some w) ::
          PollEv.dispatchEv w :: poll shouldStop claimAt ms (i + 1) fuel) ∧
    (shouldStop i = false → claimAt i = none →
      poll shouldStop claimAt ms i (fuel + 1) =
        PollEv.shouldStopEv false :: PollEv.claimEv none ::
          PollEv.delayPollEv ms :: poll shouldStop claimAt ms (i + 1) fuel) := by
  refine ⟨fun hstop => ?_, fun w hstop hcl => ?_, fun hstop hcl => ?_⟩
  · simp [poll, hstop]
  · simp [poll, hstop, hcl]
  · simp [poll, hstop, hcl]

/-- Claim C6 witness: an iteration whose claim returns "W" dispatches it
with no delay and continues. -/
theorem poll_iteration_spec_witness :
    poll (fun _ => false) (fun j => if j = 0 then some "W" else none) 5 0 2 =
      PollEv.shouldStopEv false :: PollEv.claimEv (some "W") ::
        PollEv.dispatchEv "W" ::
          poll (fun _ => false) (fun j => if j = 0 then some "W" else none) 5 1 1 :=
  (poll_iteration_spec (fun _ => false)
    (fun j => if j = 0 then some "W" else none) 5 0 1).2.1 "W" rfl rfl

lemma countP_eq_zero_of_findAssoc_none (wid : String) :
    ∀ rows : List (String × String × Value), findAssoc rows wid = none →
      rows.countP (fun row => row.1 == wid) = 0 := by
  intro rows
  induction rows with
  | nil => intro _; rfl
  | cons kv rest ih =>
    intro h
    simp only [findAssoc] at h
    by_cases hk : wid = kv.1
    · rw [show kv = (kv.1, kv.2) from rfl, if_pos hk] at h
      cases h
    · rw [show kv = (kv.1, kv.2) from rfl, if_neg hk] at h
      simp only [List.countP_cons, ih h]
      have : (kv.1 == wid) = false := by
        simp
        exact fun he => hk he.symm
      simp [this]

/-- Claim C8: starting the same workflow id twice returns `true` then
`false`; the second call leaves the table exactly as the first left it,
even with a different handler and input, so the record still carries the
first call's handler and input, and exactly one row exists for the id. -/
theorem start_duplicate (tbl : WfTable) (wid : String) (h1 : String) (x1 : Value)
    (h2 : String) (x2 : Value) (hfresh : findAssoc tbl.rows wid = none) :
    (start tbl wid h1 x1).1 = true ∧
    (start (start tbl wid h1 x1).2 wid h2 x2).1 = false ∧
    (start (start tbl wid h1 x1).2 wid h2 x2).2 = (start tbl wid h1 x1).2 ∧
    findAssoc (start (start tbl wid h1 x1).2 wid h2 x2).2.rows wid =
      some (h1, x1) ∧
    ((start (start tbl wid h1 x1).2 wid h2 x2).2.rows.countP
      (fun row => row.1 == wid)) = 1 := by
  have hzero := countP_eq_zero_of_findAssoc_none wid tbl.rows hfresh
  refine ⟨?_, ?_, ?_, ?_, ?_⟩ <;>
    simp [start, insert, findAssoc, hfresh, List.countP_cons, hzero]

/-- Claim C8 witness: on the empty table, start("W","h",1) then
start("W","h2",2) returns true then false and keeps handler "h", input 1. -/
theorem start_duplicate_witness :
    (start (WfTable.mk []) "W" "h" (Value.num 1)).1 = true ∧
    (start (start (WfTable.mk []) "W" "h" (Value.num 1)).2 "W" "h2"
      (Value.num 2)).1 = false ∧
    (start (start (WfTable.mk []) "W" "h" (Value.num 1)).2 "W" "h2"
      (Value.num 2)).2 = (start (WfTable.mk []) "W" "h" (Value.num 1)).2 ∧
    findAssoc (start (start (WfTable.mk []) "W" "h" (Value.num 1)).2 "W" "h2"
      (Value.num 2)).2.rows "W" = some ("h", Value.num 1) ∧
    ((start (start (WfTable.mk []) "W" "h" (Value.num 1)).2 "W" "h2"
      (Value.num 2)).2.rows.countP (fun row => row.1 == "W")) = 1 :=
  start_duplicate (WfTable.mk []) "W" "h" (Value.num 1) "h2" (Value.num 2) rfl

/-- Claim C10: `makeWorker` combines each numeric option with its default
using JavaScript `||`, so an option set to the falsy value 0 yields exactly
the configuration of an omitted option — configuring `maxFailures = 0` or a
zero interval is impossible — and the all-zero configuration resolves to
the library defaults (3, 60000, 1000, 60000). -/
theorem makeWorker_falsy_options (c : WorkerOptions) :
    resolveWorkerOptions { c with maxFailures := some 0 } =
      resolveWorkerOptions { c with maxFailures := none } ∧
    resolveWorkerOptions { c with timeoutIntervalMs := some 0 } =
      resolveWorkerOptions { c with timeoutIntervalMs := none } ∧
    resolveWorkerOptions { c with pollIntervalMs := some 0 } =
      resolveWorkerOptions { c with pollIntervalMs := none } ∧
    resolveWorkerOptions { c with retryIntervalMs := some 0 } =
      resolveWorkerOptions { c with retryIntervalMs := none } ∧
    resolveWorkerOptions (WorkerOptions.mk (some 0) (some 0) (some 0) (some 0)) =
      ResolvedOptions.mk DEFAULT_MAX_FAILURES DEFAULT_TIMEOUT_MS DEFAULT_POLL_MS
        DEFAULT_RETRY_MS := by
  refine ⟨?_, ?_, ?_, ?_, rfl⟩ <;> simp [resolveWorkerOptions, jsOrInt]

end Lidex
